import Mathlib

/-!
Meta string record of `go/fury/meta/meta_string.go`

A shallow embedding of the `MetaString` record, its five field accessors and
`StripLastChar`, followed by the properties of that code.

Modelling choices, each taken from the Go source:

* `byte` and `Encoding` are `uint8`; both are embedded as `Fin 256`.
* A Go `[]byte` is either the nil slice or an allocated slice holding a
  (possibly empty) sequence of bytes.  The test `ms.encodedBytes == nil` of
  `StripLastChar` separates the two, so the embedding keeps them apart:
  `none` is the nil slice, `some bs` an allocated slice with elements `bs`.
  Both `none` and `some []` have length zero.
* Indexing a slice outside `0 ≤ i < len` is a run-time panic in Go.  The
  embedding returns `Except.error` with the index and the length.
* Every method has the pointer receiver `ms *MetaString`.  A method is
  embedded as a function from the record the receiver points to, to the pair
  of its outcome and the record the receiver points to afterwards.  The
  receiver is taken to point to a record: the properties below are about
  `MetaString` values, not about a nil `*MetaString`.
-/

namespace Meta

/-- Go `byte` (alias of `uint8`). -/
abbrev Byte := Fin 256

/-- Go `string`: an immutable sequence of bytes. -/
abbrev GoString := List Byte

/-- Go `type Encoding uint8`. -/
abbrev Encoding := Fin 256

/-- Tag `UTF_8 Encoding = 0x00`. -/
def UTF_8 : Encoding := 0x00

/-- Tag `LOWER_SPECIAL Encoding = 0x01`. -/
def LOWER_SPECIAL : Encoding := 0x01

/-- Tag `LOWER_UPPER_DIGIT_SPECIAL Encoding = 0x02`. -/
def LOWER_UPPER_DIGIT_SPECIAL : Encoding := 0x02

/-- Tag `FIRST_TO_LOWER_SPECIAL Encoding = 0x03`. -/
def FIRST_TO_LOWER_SPECIAL : Encoding := 0x03

/-- Tag `ALL_TO_LOWER_SPECIAL Encoding = 0x04`. -/
def ALL_TO_LOWER_SPECIAL : Encoding := 0x04

/-- The constants of the `const ( ... )` block, in source order. -/
def encodingConstants : List Encoding :=
  [UTF_8, LOWER_SPECIAL, LOWER_UPPER_DIGIT_SPECIAL, FIRST_TO_LOWER_SPECIAL,
    ALL_TO_LOWER_SPECIAL]

/-- Go `[]byte`: `none` is the nil slice, `some bs` an allocated slice whose
elements are `bs` (`some []` is an allocated slice of length zero, such as
`[]byte{}` or `make([]byte, 0)`). -/
abbrev ByteSlice := Option (List Byte)

/-- Run-time panic of the Go runtime raised by an index expression:
`index out of range [index] with length length`. -/
inductive Panic where
  | indexOutOfRange (index length : Nat)
  deriving DecidableEq, Repr

/-- Go `s == nil` on a slice. -/
def ByteSlice.isNil : ByteSlice → Bool
  | none => true
  | some _ => false

/-- Go `len(s)`; the nil slice has length zero. -/
def ByteSlice.len : ByteSlice → Nat
  | none => 0
  | some bs => bs.length

/-- Go index expression `s[i]`: the element when `i < len(s)`, a run-time
panic otherwise. -/
def ByteSlice.index (s : ByteSlice) (i : Nat) : Except Panic Byte :=
  match s with
  | none => Except.error (Panic.indexOutOfRange i 0)
  | some bs =>
    match bs.get? i with
    | some b => Except.ok b
    | none => Except.error (Panic.indexOutOfRange i bs.length)

/-- Go `type MetaString struct`. -/
structure MetaString where
  inputString : GoString
  encoding : Encoding
  specialChar1 : Byte
  specialChar2 : Byte
  encodedBytes : ByteSlice
  deriving DecidableEq, Repr

/-- Method `func (ms *MetaString) GetInputString() string`. -/
def GetInputString (ms : MetaString) : GoString × MetaString :=
  (ms.inputString, ms)

/-- Method `func (ms *MetaString) GetEncoding() Encoding`. -/
def GetEncoding (ms : MetaString) : Encoding × MetaString :=
  (ms.encoding, ms)

/-- Method `func (ms *MetaString) GetSpecialChar1() byte`. -/
def GetSpecialChar1 (ms : MetaString) : Byte × MetaString :=
  (ms.specialChar1, ms)

/-- Method `func (ms *MetaString) GetSpecialChar2() byte`. -/
def GetSpecialChar2 (ms : MetaString) : Byte × MetaString :=
  (ms.specialChar2, ms)

/-- Method `func (ms *MetaString) GetEncodedBytes() []byte`. -/
def GetEncodedBytes (ms : MetaString) : ByteSlice × MetaString :=
  (ms.encodedBytes, ms)

/-- Method `func (ms *MetaString) StripLastChar() bool`:

    if ms.encoding == UTF_8 || ms.encodedBytes == nil { return false }
    return (ms.encodedBytes[0] & 0x80) > 0

The first component is the returned boolean, or the panic of the index
expression; the second is the record after the call. -/
def StripLastChar (ms : MetaString) : Except Panic Bool × MetaString :=
  if ms.encoding == UTF_8 || ms.encodedBytes.isNil then
    (Except.ok false, ms)
  else
    match ms.encodedBytes.index 0 with
    | Except.ok b => (Except.ok (decide ((b &&& 0x80) > 0)), ms)
    | Except.error p => (Except.error p, ms)

/-! ## Supporting lemmas -/

set_option maxRecDepth 100000

/-- Bit 7 of a byte is set exactly when the byte, read as an unsigned 8-bit
integer, is at least 128. -/
theorem bit7_set_iff_ge_128 (b : Byte) : (b &&& 0x80) > 0 ↔ 128 ≤ b.val := by
  revert b
  decide

/-- The first branch of `StripLastChar`: a `UTF_8` record returns false. -/
theorem StripLastChar_result_of_utf8 (ms : MetaString) (h : ms.encoding = UTF_8) :
    (StripLastChar ms).1 = Except.ok false := by
  simp [StripLastChar, h]

/-- The first branch of `StripLastChar`: a nil `encodedBytes` returns false. -/
theorem StripLastChar_result_of_nil (ms : MetaString) (h : ms.encodedBytes = none) :
    (StripLastChar ms).1 = Except.ok false := by
  simp [StripLastChar, h, ByteSlice.isNil]

/-- The second branch of `StripLastChar` on a non-empty slice: the result is
the test of bit 7 of the first byte. -/
theorem StripLastChar_result_of_cons (ms : MetaString) (b : Byte) (r : List Byte)
    (he : ms.encoding ≠ UTF_8) (hb : ms.encodedBytes = some (b :: r)) :
    (StripLastChar ms).1 = Except.ok (decide ((b &&& 0x80) > 0)) := by
  simp [StripLastChar, he, hb, ByteSlice.isNil, ByteSlice.index]

/-- The second branch of `StripLastChar` on an allocated slice of length
zero: the index expression `ms.encodedBytes[0]` panics. -/
theorem StripLastChar_result_of_allocated_empty (ms : MetaString)
    (he : ms.encoding ≠ UTF_8) (hb : ms.encodedBytes = some []) :
    (StripLastChar ms).1 = Except.error (Panic.indexOutOfRange 0 0) := by
  simp [StripLastChar, he, hb, ByteSlice.isNil, ByteSlice.index]

/-- What `StripLastChar` does on every record whose `encodedBytes` is not an
allocated slice of length zero under a non-`UTF_8` encoding: it returns, and
the value is true exactly when the encoding is not `UTF_8` and `encodedBytes`
is non-empty with bit 7 of its first byte set. -/
theorem StripLastChar_returns_unless_allocated_empty (ms : MetaString)
    (h : ms.encoding = UTF_8 ∨ ms.encodedBytes ≠ some []) :
    ∃ v : Bool, (StripLastChar ms).1 = Except.ok v ∧
      (v = true ↔ ms.encoding ≠ UTF_8 ∧
        ∃ b r, ms.encodedBytes = some (b :: r) ∧ (b &&& 0x80) > 0) := by
  by_cases he : ms.encoding = UTF_8
  · exact ⟨false, StripLastChar_result_of_utf8 ms he, by simp [he]⟩
  · have hne : ms.encodedBytes ≠ some [] := h.resolve_left he
    cases hb : ms.encodedBytes with
    | none => exact ⟨false, StripLastChar_result_of_nil ms hb, by simp⟩
    | some bs =>
      cases bs with
      | nil => exact absurd hb hne
      | cons b r =>
        refine ⟨decide ((b &&& 0x80) > 0), StripLastChar_result_of_cons ms b r he hb, ?_⟩
        simp [he]

/-! ## The strip flag -/

/-- Claim C1, evaluated where the code departs from it: under the non-`UTF_8`
encoding `ALL_TO_LOWER_SPECIAL`, with `encodedBytes` an allocated slice of
length zero, the condition of the claim is false (the slice is empty), yet
`StripLastChar` does not return false: the index expression
`ms.encodedBytes[0]` panics with index 0 out of range for length 0. -/
theorem StripLastChar_allocated_empty_not_false :
    ALL_TO_LOWER_SPECIAL ≠ UTF_8 ∧
    ByteSlice.len (some []) = 0 ∧
    (StripLastChar ⟨[], ALL_TO_LOWER_SPECIAL, 0, 0, some []⟩).1
      = Except.error (Panic.indexOutOfRange 0 0) ∧
    (StripLastChar ⟨[], ALL_TO_LOWER_SPECIAL, 0, 0, some []⟩).1 ≠ Except.ok false := by
  refine ⟨by decide, rfl, rfl, ?_⟩
  show (Except.error (Panic.indexOutOfRange 0 0) : Except Panic Bool) ≠ Except.ok false
  intro h
  cases h

/-- Claim C2: for every record whose encoding is `UTF_8`, `StripLastChar`
returns false, whatever `encodedBytes` is (nil, allocated and empty, or
non-empty with any first byte). -/
theorem StripLastChar_utf8_false (ms : MetaString) (h : ms.encoding = UTF_8) :
    (StripLastChar ms).1 = Except.ok false := by
  unfold StripLastChar
  rw [h]
  rfl

/-- Instance of `StripLastChar_utf8_false` at the two bytes `0xC3 0xA9`, a
multi-byte UTF-8 sequence whose first byte has bit 7 set. -/
theorem StripLastChar_utf8_false_witness :
    (MetaString.mk [0xC3, 0xA9] UTF_8 0x2E 0x5F (some [0xC3, 0xA9])).encoding = UTF_8 ∧
    (StripLastChar (MetaString.mk [0xC3, 0xA9] UTF_8 0x2E 0x5F (some [0xC3, 0xA9]))).1
      = Except.ok false :=
  ⟨rfl, StripLastChar_utf8_false _ rfl⟩

/-- Claim C3, evaluated where the code departs from it: under `LOWER_SPECIAL`,
with `encodedBytes` an allocated slice of length zero, the slice is not nil,
so the guard of `StripLastChar` does not fire and the index expression
`ms.encodedBytes[0]` is reached out of range: the call panics instead of
returning false. -/
theorem StripLastChar_lower_special_allocated_empty_panics :
    ByteSlice.isNil (some []) = false ∧
    ByteSlice.len (some []) = 0 ∧
    (StripLastChar ⟨[], LOWER_SPECIAL, 0, 0, some []⟩).1
      = Except.error (Panic.indexOutOfRange 0 0) :=
  ⟨rfl, rfl, rfl⟩

/-- Claim C8: two records with the same encoding and non-empty `encodedBytes`
with equal first bytes give the same `StripLastChar` result, whatever their
`inputString`, `specialChar1`, `specialChar2` and the bytes after index 0. -/
theorem StripLastChar_depends_on_encoding_and_first_byte
    (ms₁ ms₂ : MetaString) (b : Byte) (r₁ r₂ : List Byte)
    (henc : ms₁.encoding = ms₂.encoding)
    (h₁ : ms₁.encodedBytes = some (b :: r₁))
    (h₂ : ms₂.encodedBytes = some (b :: r₂)) :
    (StripLastChar ms₁).1 = (StripLastChar ms₂).1 := by
  by_cases he : ms₂.encoding = UTF_8
  · rw [StripLastChar_result_of_utf8 ms₁ (henc.trans he), StripLastChar_result_of_utf8 ms₂ he]
  · rw [StripLastChar_result_of_cons ms₁ b r₁ (henc ▸ he) h₁,
      StripLastChar_result_of_cons ms₂ b r₂ he h₂]

/-- Instance of `StripLastChar_depends_on_encoding_and_first_byte` at two
records that agree on the encoding and the first byte `0x85` only. -/
theorem StripLastChar_depends_on_encoding_and_first_byte_witness :
    (StripLastChar (MetaString.mk [0x61, 0x62] LOWER_SPECIAL 0x2E 0x5F (some [0x85]))).1
      = (StripLastChar (MetaString.mk [] LOWER_SPECIAL 0x24 0x7C (some [0x85, 0x01, 0xFF]))).1 :=
  StripLastChar_depends_on_encoding_and_first_byte
    (MetaString.mk [0x61, 0x62] LOWER_SPECIAL 0x2E 0x5F (some [0x85]))
    (MetaString.mk [] LOWER_SPECIAL 0x24 0x7C (some [0x85, 0x01, 0xFF]))
    0x85 [] [0x01, 0xFF] rfl rfl rfl

/-- Claim C9: for every encoding value other than `0x00` (the defined tags
`0x01`..`0x04` and the undefined ones `0x05`..`0xFF` alike) and every
non-empty `encodedBytes`, `StripLastChar` returns true exactly when the first
byte, read as an unsigned 8-bit integer, is at least 128; and the test
`(b & 0x80) > 0` of the code is equivalent to `b >= 128`. -/
theorem StripLastChar_nonzero_encoding_iff_ge_128
    (ms : MetaString) (b : Byte) (r : List Byte)
    (he : ms.encoding.val ≠ 0x00) (hb : ms.encodedBytes = some (b :: r)) :
    (StripLastChar ms).1 = Except.ok (decide (128 ≤ b.val)) ∧
    ((b &&& 0x80) > 0 ↔ 128 ≤ b.val) := by
  have hne : ms.encoding ≠ UTF_8 := fun h => he (by rw [h]; rfl)
  refine ⟨?_, bit7_set_iff_ge_128 b⟩
  rw [StripLastChar_result_of_cons ms b r hne hb]
  congr 1
  exact decide_eq_decide.mpr (bit7_set_iff_ge_128 b)

/-- Instance of `StripLastChar_nonzero_encoding_iff_ge_128` at the undefined
tag `0xFF` and the first byte `0x80`. -/
theorem StripLastChar_nonzero_encoding_iff_ge_128_witness :
    (MetaString.mk [] 0xFF 0 0 (some [0x80, 0x00])).encoding.val ≠ 0x00 ∧
    (StripLastChar (MetaString.mk [] 0xFF 0 0 (some [0x80, 0x00]))).1 = Except.ok true :=
  ⟨by decide,
    (StripLastChar_nonzero_encoding_iff_ge_128
      (MetaString.mk [] 0xFF 0 0 (some [0x80, 0x00])) 0x80 [0x00] (by decide) rfl).1⟩

/-- Claim C10: for every record whose `encodedBytes` is the nil slice,
`StripLastChar` returns false under every encoding value; no byte is read,
since every index expression on the nil slice panics and the call returns. -/
theorem StripLastChar_nil_false (ms : MetaString) (h : ms.encodedBytes = none) :
    (StripLastChar ms).1 = Except.ok false ∧
    ∀ i : Nat, ms.encodedBytes.index i = Except.error (Panic.indexOutOfRange i 0) := by
  constructor
  · unfold StripLastChar
    rw [h]
    simp [ByteSlice.isNil]
  · intro i
    rw [h]
    rfl

/-- Instance of `StripLastChar_nil_false` at the zero-valued record apart from
the encoding, which is the 6-bit variant. -/
theorem StripLastChar_nil_false_witness :
    (MetaString.mk [] LOWER_UPPER_DIGIT_SPECIAL 0 0 none).encodedBytes = none ∧
    (StripLastChar (MetaString.mk [] LOWER_UPPER_DIGIT_SPECIAL 0 0 none)).1
      = Except.ok false :=
  ⟨rfl, (StripLastChar_nil_false (MetaString.mk [] LOWER_UPPER_DIGIT_SPECIAL 0 0 none) rfl).1⟩

/-! ## Encoding tags -/

/-- Claim C4: the five encoding constants have the tag values `0x00`..`0x04`
in source order, are pairwise distinct, and each fits in one byte. -/
theorem encoding_tags_values_distinct_one_byte :
    UTF_8.val = 0x00 ∧ LOWER_SPECIAL.val = 0x01 ∧
    LOWER_UPPER_DIGIT_SPECIAL.val = 0x02 ∧ FIRST_TO_LOWER_SPECIAL.val = 0x03 ∧
    ALL_TO_LOWER_SPECIAL.val = 0x04 ∧
    encodingConstants.length = 5 ∧
    encodingConstants.Nodup ∧
    (encodingConstants.map Fin.val).Nodup ∧
    ∀ e ∈ encodingConstants, e.val < 2 ^ 8 := by
  decide

/-! ## Accessors and frame -/

/-- Claim C5: each accessor returns the field it is named after:
`GetInputString` the input string, `GetEncoding` the encoding,
`GetSpecialChar1` the first special character, `GetSpecialChar2` the second,
and `GetEncodedBytes` the encoded bytes (the same slice, nil or not). -/
theorem accessors_return_their_field
    (s : GoString) (e : Encoding) (c₁ c₂ : Byte) (bs : ByteSlice) :
    (GetInputString ⟨s, e, c₁, c₂, bs⟩).1 = s ∧
    (GetEncoding ⟨s, e, c₁, c₂, bs⟩).1 = e ∧
    (GetSpecialChar1 ⟨s, e, c₁, c₂, bs⟩).1 = c₁ ∧
    (GetSpecialChar2 ⟨s, e, c₁, c₂, bs⟩).1 = c₂ ∧
    (GetEncodedBytes ⟨s, e, c₁, c₂, bs⟩).1 = bs :=
  ⟨rfl, rfl, rfl, rfl, rfl⟩

/-- Claim C6: no method mutates its receiver: after each of the five
accessors and after `StripLastChar` (whether it returns or panics) the record
is the one before the call, so all five fields keep their values. -/
theorem methods_leave_receiver_unchanged (ms : MetaString) :
    (GetInputString ms).2 = ms ∧
    (GetEncoding ms).2 = ms ∧
    (GetSpecialChar1 ms).2 = ms ∧
    (GetSpecialChar2 ms).2 = ms ∧
    (GetEncodedBytes ms).2 = ms ∧
    (StripLastChar ms).2 = ms := by
  refine ⟨rfl, rfl, rfl, rfl, rfl, ?_⟩
  unfold StripLastChar
  split
  · rfl
  · split <;> rfl

end Meta
